import Mathlib

/-!
Verification of the Luxo-Jr single-actuator control script
(`src/luxojr/luxojr.py`) against its specification.

The Python source has two in-scope parts:

* the phase selector `TorqueToPD` (`__init__` on lines 88-113 and
  `__call__` on lines 115-142): an object holding real-valued
  configuration parameters plus one mutable boolean latch
  `past_pd_threshold`, whose call maps `(pos, t)` to one of four
  actuator commands via an if/elif chain, flipping the latch on the
  third branch;

* the control loop `main` (lines 35-84): clears faults, then polls —
  sampling wall time, updating a filtered loop period, invoking the
  selector, issuing the command, appending a telemetry sample — until
  `time_since_start > termination_time`, with a `try/finally` that
  issues a final stop and pickles the telemetry list on every exit.

Real-valued quantities are embedded as `ℚ` (exact arithmetic).  The
actuator is external: each loop iteration consumes an input consisting
of the wall-clock time at loop start and the actuator's response to the
issued command (`some position`, or `none` for a communication error).
-/

/-- Configuration fields stored by `TorqueToPD.__init__`
(`src/luxojr/luxojr.py`, lines 100-113). -/
structure TorqueToPDConfig where
  t_begin : ℚ
  t_reset : ℚ
  pd_begin : ℚ
  pd_target : ℚ
  torque : ℚ
  kp_scale : ℚ
  kd_scale : ℚ
  maximum_torque : ℚ
  termination_time : ℚ
  reset_torque : ℚ
deriving Repr, DecidableEq

/-- The arguments of one `controller.set_position(...)` call made by
`TorqueToPD.__call__`: absent keyword arguments are `none`. -/
structure Command where
  position : Option ℚ
  kp_scale : ℚ
  kd_scale : ℚ
  feedforward_torque : Option ℚ
  maximum_torque : ℚ
  query : Bool
deriving Repr, DecidableEq

/-- `TorqueToPD.__init__(controller, t_begin, t_reset, pd_begin, pd_target,
torque, kp_scale=1.0, kd_scale=1.0, maximum_torque=1.0,
termination_time=1.0, reset_torque=0.2)`: stores every parameter
unchanged and sets `past_pd_threshold = False`.  The Python constructor
contains no validity check of any kind.  Result: (stored configuration,
initial latch). -/
def torqueToPDInit (t_begin t_reset pd_begin pd_target torque kp_scale
    kd_scale maximum_torque termination_time reset_torque : ℚ) :
    TorqueToPDConfig × Bool :=
  (⟨t_begin, t_reset, pd_begin, pd_target, torque, kp_scale, kd_scale,
    maximum_torque, termination_time, reset_torque⟩, false)

/-- `TorqueToPD.__call__(pos, t)` (lines 115-142): the four-branch
if/elif chain.  Returns the latch value after the call together with
the command passed to `controller.set_position`.  Branch 3 is the only
one that writes the latch (`self.past_pd_threshold = True`). -/
def torqueToPDCall (cfg : TorqueToPDConfig) (latch : Bool) (pos t : ℚ) :
    Bool × Command :=
  if t < cfg.t_begin then
    (latch, ⟨some 0, cfg.kp_scale, cfg.kd_scale, none, cfg.maximum_torque, true⟩)
  else if pos < cfg.pd_begin ∧ latch = false then
    (latch, ⟨none, 0, 0, some cfg.torque, cfg.maximum_torque, true⟩)
  else if t < cfg.t_reset then
    (true, ⟨some cfg.pd_target, cfg.kp_scale, cfg.kd_scale, none, cfg.maximum_torque, true⟩)
  else
    (latch, ⟨some 0, cfg.kp_scale, cfg.kd_scale, none, cfg.reset_torque, true⟩)

/-- The branch-1 command: hold position 0 with configured gains. -/
def holdZeroCommand (cfg : TorqueToPDConfig) : Command :=
  ⟨some 0, cfg.kp_scale, cfg.kd_scale, none, cfg.maximum_torque, true⟩

/-- The branch-2 command: zero gains, feedforward torque, no target. -/
def feedforwardCommand (cfg : TorqueToPDConfig) : Command :=
  ⟨none, 0, 0, some cfg.torque, cfg.maximum_torque, true⟩

/-- The branch-3 command: target `pd_target` with configured gains. -/
def positionTargetCommand (cfg : TorqueToPDConfig) : Command :=
  ⟨some cfg.pd_target, cfg.kp_scale, cfg.kd_scale, none, cfg.maximum_torque, true⟩

/-- The branch-4 command: target 0 with torque limit `reset_torque`. -/
def resetCommand (cfg : TorqueToPDConfig) : Command :=
  ⟨some 0, cfg.kp_scale, cfg.kd_scale, none, cfg.reset_torque, true⟩

/-- The `TorqueToPD` object constructed in `main` (lines 50-57):
`t_begin=0.4, t_reset=0.8, pd_begin=2.0, pd_target=2.5, torque=1.5,
maximum_torque=1.5, termination_time=1.2`, with defaults
`kp_scale=1.0, kd_scale=1.0, reset_torque=0.2`. -/
def mainTorqueToPD : TorqueToPDConfig × Bool :=
  torqueToPDInit (2/5) (4/5) 2 (5/2) (3/2) 1 1 (3/2) (6/5) (1/5)

/-- The configuration of `main`'s selector. -/
def mainCfg : TorqueToPDConfig := mainTorqueToPD.1

/-- A sequence of selector calls threading the latch through, as the
control loop does; returns the final latch value. -/
def runCalls (cfg : TorqueToPDConfig) (latch : Bool) :
    List (ℚ × ℚ) → Bool
  | [] => latch
  | c :: rest => runCalls cfg (torqueToPDCall cfg latch c.1 c.2).1 rest

/-- The per-iteration mutable state of `main`'s loop: `dt_filtered`,
`last_time`, `last_position` (lines 44-48) and the selector's latch. -/
structure LoopState where
  dt_filtered : ℚ
  last_time : ℚ
  last_position : ℚ
  latch : Bool
deriving Repr, DecidableEq

/-- How one successful iteration (wall time `now`, observed position
`p`) updates the loop state (lines 60-68): `dt = now - last_time`,
`dt_filtered = 0.99·dt_filtered + 0.01·dt`, `last_time = now`, the
latch is updated by the selector call made with the previous
`last_position` and `time_since_start = now - t0`, and `last_position`
becomes the returned position. -/
def loopStateStep (cfg : TorqueToPDConfig) (t0 : ℚ) (s : LoopState)
    (now p : ℚ) : LoopState :=
  ⟨(99/100) * s.dt_filtered + (1/100) * (now - s.last_time), now, p,
    (torqueToPDCall cfg s.latch s.last_position (now - t0)).1⟩

/-- Outcome of running the `while True` loop on a finite input trace:
`normal` — the `return` on line 77 fired; `error` — the actuator call
raised; `fuelOut` — the trace ended with the loop still running. -/
inductive LoopOutcome
  | normal
  | error
  | fuelOut
deriving Repr, DecidableEq

/-- The `while True` loop of `main` (lines 59-80).  Each element of the
input trace is the wall-clock time sampled at the top of the iteration
together with the actuator's response (`some position`, or `none` when
the communication raises).  Returns the telemetry samples appended to
`data` (elapsed time and observed position), the commands issued, and
the outcome.  On an error the current iteration's command was issued
but its sample was never appended; on normal exit the final sample is
appended before the `return`. -/
def runLoop (cfg : TorqueToPDConfig) (t0 : ℚ) :
    LoopState → List (ℚ × Option ℚ) →
    List (ℚ × ℚ) × List Command × LoopOutcome
  | _, [] => ([], [], LoopOutcome.fuelOut)
  | s, (now, resp) :: rest =>
    match resp with
    | none =>
        ([], [(torqueToPDCall cfg s.latch s.last_position (now - t0)).2],
          LoopOutcome.error)
    | some p =>
        if now - t0 > cfg.termination_time then
          ([(now - t0, p)],
            [(torqueToPDCall cfg s.latch s.last_position (now - t0)).2],
            LoopOutcome.normal)
        else
          ((now - t0, p) ::
              (runLoop cfg t0 (loopStateStep cfg t0 s now p) rest).1,
            (torqueToPDCall cfg s.latch s.last_position (now - t0)).2 ::
              (runLoop cfg t0 (loopStateStep cfg t0 s now p) rest).2.1,
            (runLoop cfg t0 (loopStateStep cfg t0 s now p) rest).2.2)

/-- What `main` hands back after the `try/finally` (lines 39-84):
whether the final `set_stop` of the `finally` block was issued, the
telemetry list pickled by the `finally` block, the commands issued, and
the loop outcome. -/
structure MainResult where
  finalStop : Bool
  flushed : List (ℚ × ℚ)
  cmds : List Command
  outcome : LoopOutcome
deriving Repr, DecidableEq

/-- `main` (lines 35-84): initial `set_stop` (which may itself fail:
`initStopOk = false`), then the loop from the state `dt_filtered = 0`,
`last_time = tl0`, `last_position = 0.0`, latch `false`, with
`timestamp_begin_loop = t0`.  The `finally` block always issues the
final stop and pickles the telemetry list, on the normal path and on
the error path alike. -/
def mainModel (cfg : TorqueToPDConfig) (t0 tl0 : ℚ) (initStopOk : Bool)
    (inputs : List (ℚ × Option ℚ)) : MainResult :=
  if initStopOk then
    ⟨true, (runLoop cfg t0 ⟨0, tl0, 0, false⟩ inputs).1,
      (runLoop cfg t0 ⟨0, tl0, 0, false⟩ inputs).2.1,
      (runLoop cfg t0 ⟨0, tl0, 0, false⟩ inputs).2.2⟩
  else ⟨true, [], [], LoopOutcome.error⟩

/-- Iterating the loop-state update with the wall clock advancing by a
constant `dt` each iteration and a constant observed position `p`. -/
def iterConstDt (cfg : TorqueToPDConfig) (t0 p dt : ℚ) (s : LoopState) :
    ℕ → LoopState
  | 0 => s
  | n + 1 =>
    loopStateStep cfg t0 (iterConstDt cfg t0 p dt s n)
      ((iterConstDt cfg t0 p dt s n).last_time + dt) p

/- ### Helper lemmas about the selector -/

/-- A true latch is never cleared by a call. -/
theorem torqueToPDCall_latch_mono (cfg : TorqueToPDConfig) (pos t : ℚ) :
    (torqueToPDCall cfg true pos t).1 = true := by
  unfold torqueToPDCall
  split
  · rfl
  · split
    · rfl
    · split
      · rfl
      · rfl

/-- If a call flips the latch from false to true, the call's inputs
satisfied the branch-3 guards, and the call returned the branch-3
command. -/
theorem torqueToPDCall_latch_set (cfg : TorqueToPDConfig) (pos t : ℚ)
    (h : (torqueToPDCall cfg false pos t).1 = true) :
    cfg.t_begin ≤ t ∧ t < cfg.t_reset ∧ cfg.pd_begin ≤ pos ∧
      (torqueToPDCall cfg false pos t).2 = positionTargetCommand cfg := by
  unfold torqueToPDCall at h ⊢
  by_cases h1 : t < cfg.t_begin
  · simp [h1] at h
  · by_cases h2 : pos < cfg.pd_begin
    · simp [h1, h2] at h
    · by_cases h3 : t < cfg.t_reset
      · exact ⟨not_lt.mp h1, h3, not_lt.mp h2, by simp [h1, h2, h3, positionTargetCommand]⟩
      · simp [h1, h2, h3] at h

/- ### Claims about the phase selector -/

/-- C5: for every selector call with `t < t_begin`, regardless of the
position input and the latch state, the returned command targets
position 0.0 with the configured `kp_scale`, `kd_scale` and
`maximum_torque` and the query flag set; the latch is unchanged. -/
theorem hold_zero_phase (cfg : TorqueToPDConfig) (latch : Bool) (pos t : ℚ)
    (h : t < cfg.t_begin) :
    torqueToPDCall cfg latch pos t = (latch, holdZeroCommand cfg) := by
  simp [torqueToPDCall, holdZeroCommand, h]

/-- C5 witness: `main`'s configuration at `t = 0`, position 5, latch true. -/
theorem hold_zero_phase_witness :
    torqueToPDCall mainCfg true 5 0 = (true, holdZeroCommand mainCfg) :=
  hold_zero_phase mainCfg true 5 0
    (by norm_num [mainCfg, mainTorqueToPD, torqueToPDInit])

/-- C8: for every call with `t ≥ t_begin`, `pos < pd_begin` and latch
false, the returned command is the feedforward push: zero kp/kd scales,
feedforward torque equal to the configured torque, torque limit
`maximum_torque`, query set — and its target-position field is absent. -/
theorem feedforward_push_phase (cfg : TorqueToPDConfig) (pos t : ℚ)
    (ht : cfg.t_begin ≤ t) (hp : pos < cfg.pd_begin) :
    torqueToPDCall cfg false pos t = (false, feedforwardCommand cfg) ∧
      (feedforwardCommand cfg).position = none := by
  constructor
  · simp [torqueToPDCall, feedforwardCommand, not_lt.mpr ht, hp]
  · rfl

/-- C8 witness: `main`'s configuration at `t = 1/2`, position 0. -/
theorem feedforward_push_phase_witness :
    torqueToPDCall mainCfg false 0 (1/2) = (false, feedforwardCommand mainCfg) ∧
      (feedforwardCommand mainCfg).position = none :=
  feedforward_push_phase mainCfg 0 (1/2)
    (by norm_num [mainCfg, mainTorqueToPD, torqueToPDInit])
    (by norm_num [mainCfg, mainTorqueToPD, torqueToPDInit])

/-- C1 counterexample: with `main`'s configuration, at elapsed time
`1 ≥ t_reset = 0.8`, position `0` and latch false, the selector returns
the feedforward-push command, not the torque-limited-reset command —
so the claim that every call with `elapsed_time ≥ t_reset` yields the
reset command regardless of position and latch is false. -/
theorem torqueToPD_reset_counterexample :
    mainCfg.t_reset ≤ 1 ∧
      (torqueToPDCall mainCfg false 0 1).2 = feedforwardCommand mainCfg ∧
      (torqueToPDCall mainCfg false 0 1).2 ≠ resetCommand mainCfg := by
  refine ⟨by norm_num [mainCfg, mainTorqueToPD, torqueToPDInit], ?_, ?_⟩
  · norm_num [mainCfg, mainTorqueToPD, torqueToPDInit, torqueToPDCall,
      feedforwardCommand]
  · norm_num [mainCfg, mainTorqueToPD, torqueToPDInit, torqueToPDCall,
      feedforwardCommand, resetCommand]

/-- C1 amended: for every call with `t ≥ t_reset` (and `t_begin ≤
t_reset`), provided additionally that the position is at least
`pd_begin` or the latch is true, the returned command is the
torque-limited reset: target position 0, configured kp/kd scales,
torque limit `reset_torque`, query set. -/
theorem torqueToPD_reset_amended (cfg : TorqueToPDConfig) (latch : Bool)
    (pos t : ℚ) (hbr : cfg.t_begin ≤ cfg.t_reset) (ht : cfg.t_reset ≤ t)
    (hp : cfg.pd_begin ≤ pos ∨ latch = true) :
    (torqueToPDCall cfg latch pos t).2 = resetCommand cfg := by
  have h1 : ¬ t < cfg.t_begin := not_lt.mpr (le_trans hbr ht)
  have h3 : ¬ t < cfg.t_reset := not_lt.mpr ht
  rcases hp with hp | hp
  · have h2 : ¬ (pos < cfg.pd_begin ∧ latch = false) := by
      rintro ⟨hlt, -⟩
      exact absurd hp (not_le.mpr hlt)
    simp [torqueToPDCall, resetCommand, h1, h2, h3]
  · subst hp
    simp [torqueToPDCall, resetCommand, h1, h3]

/-- C1 amended witness: `main`'s configuration at `t = 1`, position 0,
latch true. -/
theorem torqueToPD_reset_amended_witness :
    (torqueToPDCall mainCfg true 0 1).2 = resetCommand mainCfg :=
  torqueToPD_reset_amended mainCfg true 0 1
    (by norm_num [mainCfg, mainTorqueToPD, torqueToPDInit])
    (by norm_num [mainCfg, mainTorqueToPD, torqueToPDInit]) (Or.inr rfl)

/-- C4: (1) the constructor initializes the latch to false; (2) a call
never clears a true latch (no reset during a run); (3) the latch is set
only on entry to the phase-3 branch: a call that flips it from false to
true returns the phase-3 position-target command; (4) once the latch is
true, every call with `pos < pd_begin` and `t ∈ [t_begin, t_reset)`
returns the phase-3 position-target command and never the phase-2
feedforward-push command. -/
theorem latch_sticky :
    (∀ tb tr pb pt tq kp kd mt tt rt : ℚ,
        (torqueToPDInit tb tr pb pt tq kp kd mt tt rt).2 = false) ∧
    (∀ (cfg : TorqueToPDConfig) (latch : Bool) (pos t : ℚ),
        (torqueToPDCall cfg latch pos t).1 = false → latch = false) ∧
    (∀ (cfg : TorqueToPDConfig) (pos t : ℚ),
        (torqueToPDCall cfg false pos t).1 = true →
        (torqueToPDCall cfg false pos t).2 = positionTargetCommand cfg) ∧
    (∀ (cfg : TorqueToPDConfig) (pos t : ℚ),
        cfg.t_begin ≤ t → t < cfg.t_reset → pos < cfg.pd_begin →
        (torqueToPDCall cfg true pos t).2 = positionTargetCommand cfg ∧
        (torqueToPDCall cfg true pos t).2 ≠ feedforwardCommand cfg) := by
  refine ⟨fun _ _ _ _ _ _ _ _ _ _ => rfl, ?_, ?_, ?_⟩
  · intro cfg latch pos t h
    cases latch with
    | false => rfl
    | true => rw [torqueToPDCall_latch_mono] at h; exact h
  · intro cfg pos t h
    exact (torqueToPDCall_latch_set cfg pos t h).2.2.2
  · intro cfg pos t ht hr _
    have h1 : ¬ t < cfg.t_begin := not_lt.mpr ht
    have h2 : ¬ (pos < cfg.pd_begin ∧ (true : Bool) = false) := by
      rintro ⟨-, h⟩
      exact Bool.noConfusion h
    constructor
    · simp [torqueToPDCall, positionTargetCommand, h1, h2, hr]
    · simp [torqueToPDCall, positionTargetCommand, feedforwardCommand, h1, h2, hr]

/-- C4 witness: with `main`'s configuration, latch already true,
position 0 (below `pd_begin`) and `t = 1/2 ∈ [t_begin, t_reset)`, the
call returns the phase-3 command and not the phase-2 command. -/
theorem latch_sticky_witness :
    (torqueToPDCall mainCfg true 0 (1/2)).2 = positionTargetCommand mainCfg ∧
      (torqueToPDCall mainCfg true 0 (1/2)).2 ≠ feedforwardCommand mainCfg :=
  latch_sticky.2.2.2 mainCfg 0 (1/2)
    (by norm_num [mainCfg, mainTorqueToPD, torqueToPDInit])
    (by norm_num [mainCfg, mainTorqueToPD, torqueToPDInit])
    (by norm_num [mainCfg, mainTorqueToPD, torqueToPDInit])

/-- C10: starting from the initial latch value false, if after any
sequence of selector calls the latch is true, then some call in the
sequence had inputs with `t_begin ≤ t`, `t < t_reset` and
`pos ≥ pd_begin` — the latch can only be set by a call that observed
the position at or above the threshold during the settle window. -/
theorem latch_reachability (cfg : TorqueToPDConfig) (calls : List (ℚ × ℚ))
    (h : runCalls cfg false calls = true) :
    ∃ c ∈ calls, cfg.t_begin ≤ c.2 ∧ c.2 < cfg.t_reset ∧ cfg.pd_begin ≤ c.1 := by
  have key : ∀ (l : List (ℚ × ℚ)) (b : Bool), runCalls cfg b l = true →
      b = true ∨ ∃ c ∈ l, cfg.t_begin ≤ c.2 ∧ c.2 < cfg.t_reset ∧ cfg.pd_begin ≤ c.1 := by
    intro l
    induction l with
    | nil => intro b hb; exact Or.inl hb
    | cons c rest ih =>
      intro b hb
      rcases ih (torqueToPDCall cfg b c.1 c.2).1 hb with hset | ⟨c', hc', hprop⟩
      · cases b with
        | true => exact Or.inl rfl
        | false =>
          obtain ⟨h1, h2, h3, -⟩ := torqueToPDCall_latch_set cfg c.1 c.2 hset
          exact Or.inr ⟨c, List.mem_cons_self c rest, h1, h2, h3⟩
      · exact Or.inr ⟨c', List.mem_cons_of_mem c hc', hprop⟩
  rcases key calls false h with hfalse | hgood
  · exact absurd hfalse (by simp)
  · exact hgood

/-- C10 witness: one call at position 2 (`= pd_begin`) and time `1/2`
sets the latch under `main`'s configuration, and the theorem recovers
that call. -/
theorem latch_reachability_witness :
    ∃ c ∈ [((2 : ℚ), (1 : ℚ)/2)], mainCfg.t_begin ≤ c.2 ∧
      c.2 < mainCfg.t_reset ∧ mainCfg.pd_begin ≤ c.1 :=
  latch_reachability mainCfg [(2, 1/2)]
    (by norm_num [runCalls, torqueToPDCall, mainCfg, mainTorqueToPD,
      torqueToPDInit])

/- ### Helper lemmas about the control loop -/

/-- Running the loop over a prefix of successful, non-terminating
iterations followed by a communication error: exactly one sample per
prefix iteration was collected and the outcome is `error`. -/
theorem runLoop_error_prefix (cfg : TorqueToPDConfig) (t0 : ℚ)
    (pre rest : List (ℚ × Option ℚ)) (tk : ℚ) :
    ∀ s : LoopState,
      (∀ x ∈ pre, x.2.isSome = true ∧ x.1 - t0 ≤ cfg.termination_time) →
      (runLoop cfg t0 s (pre ++ (tk, none) :: rest)).1.length = pre.length ∧
      (runLoop cfg t0 s (pre ++ (tk, none) :: rest)).2.2 = LoopOutcome.error := by
  induction pre with
  | nil =>
    intro s _
    simp [runLoop]
  | cons hd tl ih =>
    intro s hpre
    obtain ⟨now, r⟩ := hd
    obtain ⟨hsome, hle⟩ := hpre (now, r) (List.mem_cons_self _ _)
    obtain ⟨p, hp⟩ := Option.isSome_iff_exists.mp hsome
    subst hp
    have hni : ¬ now - t0 > cfg.termination_time := not_lt.mpr hle
    have ihs := ih (loopStateStep cfg t0 s now p)
      (fun x hx => hpre x (List.mem_cons_of_mem _ hx))
    simp only [List.cons_append, runLoop, if_neg hni, List.length_cons,
      List.append_eq]
    exact ⟨by rw [ihs.1], ihs.2⟩

/-- Running the loop over a prefix of successful, non-terminating
iterations followed by a successful iteration whose elapsed time
exceeds `termination_time`: the outcome is `normal`, the collected
samples are exactly the prefix samples plus the final iteration's
sample, and one command was issued per executed iteration. -/
theorem runLoop_normal_prefix (cfg : TorqueToPDConfig) (t0 : ℚ)
    (pre rest : List (ℚ × Option ℚ)) (tN pN : ℚ)
    (hN : tN - t0 > cfg.termination_time) :
    ∀ s : LoopState,
      (∀ x ∈ pre, x.2.isSome = true ∧ x.1 - t0 ≤ cfg.termination_time) →
      (runLoop cfg t0 s (pre ++ (tN, some pN) :: rest)).2.2 = LoopOutcome.normal ∧
      (runLoop cfg t0 s (pre ++ (tN, some pN) :: rest)).1 =
        pre.map (fun x => (x.1 - t0, x.2.getD 0)) ++ [(tN - t0, pN)] ∧
      (runLoop cfg t0 s (pre ++ (tN, some pN) :: rest)).2.1.length =
        pre.length + 1 := by
  induction pre with
  | nil =>
    intro s _
    simp [runLoop, hN]
  | cons hd tl ih =>
    intro s hpre
    obtain ⟨now, r⟩ := hd
    obtain ⟨hsome, hle⟩ := hpre (now, r) (List.mem_cons_self _ _)
    obtain ⟨p, hp⟩ := Option.isSome_iff_exists.mp hsome
    subst hp
    have hni : ¬ now - t0 > cfg.termination_time := not_lt.mpr hle
    have ihs := ih (loopStateStep cfg t0 s now p)
      (fun x hx => hpre x (List.mem_cons_of_mem _ hx))
    simp only [List.cons_append, runLoop, if_neg hni, List.length_cons,
      List.map_cons, Option.getD_some, List.append_eq]
    exact ⟨ihs.1, by rw [ihs.2.1], by rw [ihs.2.2]⟩

/- ### Claims about the control loop -/

/-- C2: (1) on every exit path of `main` — normal termination, an error
in the loop, or a failure of the initial stop — the `finally` block
issues the final stop command and flushes the telemetry list; (2) if
the actuator communication fails on iteration `k` (`k ≥ 1`, with the
previous `k-1` iterations succeeding without reaching the termination
condition), the error propagates (outcome `error`) and the flushed
telemetry contains exactly `k - 1` samples. -/
theorem main_cleanup :
    (∀ (cfg : TorqueToPDConfig) (t0 tl0 : ℚ) (initStopOk : Bool)
        (inputs : List (ℚ × Option ℚ)),
        (mainModel cfg t0 tl0 initStopOk inputs).finalStop = true) ∧
    (∀ (cfg : TorqueToPDConfig) (t0 tl0 : ℚ)
        (pre rest : List (ℚ × Option ℚ)) (tk : ℚ) (k : ℕ),
        pre.length = k - 1 → 1 ≤ k →
        (∀ x ∈ pre, x.2.isSome = true ∧ x.1 - t0 ≤ cfg.termination_time) →
        (mainModel cfg t0 tl0 true (pre ++ (tk, none) :: rest)).outcome =
          LoopOutcome.error ∧
        (mainModel cfg t0 tl0 true (pre ++ (tk, none) :: rest)).flushed.length =
          k - 1) := by
  constructor
  · intro cfg t0 tl0 initStopOk inputs
    cases initStopOk <;> simp [mainModel]
  · intro cfg t0 tl0 pre rest tk k hk _ hpre
    have h := runLoop_error_prefix cfg t0 pre rest tk ⟨0, tl0, 0, false⟩ hpre
    simp only [mainModel, if_pos trivial]
    exact ⟨h.2, by rw [h.1, hk]⟩

/-- C2 witness: with `main`'s configuration, one successful iteration
at elapsed time `1/10`, then a communication error on iteration
`k = 2`: the outcome is `error` and exactly one sample is flushed. -/
theorem main_cleanup_witness :
    (mainModel mainCfg 0 0 true
        ([((1 : ℚ)/10, some 1)] ++ ((2 : ℚ)/10, none) :: [])).outcome =
      LoopOutcome.error ∧
    (mainModel mainCfg 0 0 true
        ([((1 : ℚ)/10, some 1)] ++ ((2 : ℚ)/10, none) :: [])).flushed.length =
      2 - 1 :=
  main_cleanup.2 mainCfg 0 0 [((1 : ℚ)/10, some 1)] [] ((2 : ℚ)/10) 2 rfl
    (by norm_num)
    (by
      intro x hx
      simp only [List.mem_singleton] at hx
      subst hx
      exact ⟨rfl, by norm_num [mainCfg, mainTorqueToPD, torqueToPDInit]⟩)

/-- C6: if the first `k` iterations succeed with elapsed times at most
`termination_time` and iteration `k + 1` succeeds with elapsed time
strictly greater than `termination_time`, the loop exits normally
there; the final iteration's sample is still appended, and the flushed
telemetry has one sample per executed iteration (equal to the number of
commands issued, i.e. `k + 1`). -/
theorem loop_normal_termination :
    ∀ (cfg : TorqueToPDConfig) (t0 tl0 : ℚ)
      (pre rest : List (ℚ × Option ℚ)) (tN pN : ℚ),
      (∀ x ∈ pre, x.2.isSome = true ∧ x.1 - t0 ≤ cfg.termination_time) →
      tN - t0 > cfg.termination_time →
      (mainModel cfg t0 tl0 true (pre ++ (tN, some pN) :: rest)).outcome =
        LoopOutcome.normal ∧
      (mainModel cfg t0 tl0 true (pre ++ (tN, some pN) :: rest)).flushed =
        pre.map (fun x => (x.1 - t0, x.2.getD 0)) ++ [(tN - t0, pN)] ∧
      (mainModel cfg t0 tl0 true (pre ++ (tN, some pN) :: rest)).flushed.length =
        (mainModel cfg t0 tl0 true (pre ++ (tN, some pN) :: rest)).cmds.length ∧
      (mainModel cfg t0 tl0 true (pre ++ (tN, some pN) :: rest)).flushed.length =
        pre.length + 1 := by
  intro cfg t0 tl0 pre rest tN pN hpre hN
  have h := runLoop_normal_prefix cfg t0 pre rest tN pN hN ⟨0, tl0, 0, false⟩ hpre
  simp only [mainModel, if_pos trivial]
  have hlen : (runLoop cfg t0 ⟨0, tl0, 0, false⟩
      (pre ++ (tN, some pN) :: rest)).1.length = pre.length + 1 := by
    rw [h.2.1]
    simp
  exact ⟨h.1, h.2.1, by rw [hlen, h.2.2], hlen⟩

/-- C6 witness: one iteration at elapsed time `1` (below the deadline
`1.2`), then one at elapsed time `2 > 1.2`: normal exit with both
samples flushed, two commands issued. -/
theorem loop_normal_termination_witness :
    (mainModel mainCfg 0 0 true
        ([((1 : ℚ), some 1)] ++ ((2 : ℚ), some 3) :: [])).outcome =
      LoopOutcome.normal ∧
    (mainModel mainCfg 0 0 true
        ([((1 : ℚ), some 1)] ++ ((2 : ℚ), some 3) :: [])).flushed =
      [((1 : ℚ), some (1 : ℚ))].map (fun x => (x.1 - 0, x.2.getD 0)) ++
        [((2 : ℚ) - 0, 3)] ∧
    (mainModel mainCfg 0 0 true
        ([((1 : ℚ), some 1)] ++ ((2 : ℚ), some 3) :: [])).flushed.length =
      (mainModel mainCfg 0 0 true
        ([((1 : ℚ), some 1)] ++ ((2 : ℚ), some 3) :: [])).cmds.length ∧
    (mainModel mainCfg 0 0 true
        ([((1 : ℚ), some 1)] ++ ((2 : ℚ), some 3) :: [])).flushed.length =
      [((1 : ℚ), some (1 : ℚ))].length + 1 :=
  loop_normal_termination mainCfg 0 0 [((1 : ℚ), some 1)] [] 2 3
    (by
      intro x hx
      simp only [List.mem_singleton] at hx
      subst hx
      exact ⟨rfl, by norm_num [mainCfg, mainTorqueToPD, torqueToPDInit]⟩)
    (by norm_num [mainCfg, mainTorqueToPD, torqueToPDInit])

/-- C7: each loop iteration updates the filtered period by
`dt_filtered := 0.99·dt_filtered + 0.01·dt` with `dt = now -
last_time`; consequently, when the wall clock advances by a constant
`dt` every iteration, after `N` iterations the distance of
`dt_filtered` from `dt` is exactly `0.99^N` times the initial
distance (in particular `0.99^N · dt` from the initial value 0). -/
theorem dt_filtered_convergence :
    (∀ (cfg : TorqueToPDConfig) (t0 : ℚ) (s : LoopState) (now p : ℚ),
        (loopStateStep cfg t0 s now p).dt_filtered =
          (99/100) * s.dt_filtered + (1/100) * (now - s.last_time)) ∧
    (∀ (cfg : TorqueToPDConfig) (t0 p dt : ℚ) (s : LoopState) (N : ℕ),
        |(iterConstDt cfg t0 p dt s N).dt_filtered - dt| =
          (99/100) ^ N * |s.dt_filtered - dt|) := by
  refine ⟨fun _ _ _ _ _ => rfl, ?_⟩
  intro cfg t0 p dt s N
  induction N with
  | zero => simp [iterConstDt]
  | succ n ih =>
    have hstep : (iterConstDt cfg t0 p dt s (n + 1)).dt_filtered - dt =
        (99/100) * ((iterConstDt cfg t0 p dt s n).dt_filtered - dt) := by
      simp only [iterConstDt, loopStateStep]
      ring
    rw [hstep, abs_mul, ih, abs_of_nonneg (by norm_num : (0 : ℚ) ≤ 99/100)]
    ring

/-- C9: (1) on the first loop iteration the selector is always invoked
with the hard-coded initial position `0.0` (line 48), so the first
issued command is determined by `t1 - t0` alone; (2) hence for any
configuration with `t_begin ≤ 0` and `pd_begin > 0`, the first command
of the run is the feedforward-push command, regardless of the
actuator's actual position. -/
theorem first_call_initial_position :
    (∀ (cfg : TorqueToPDConfig) (t0 tl0 t1 : ℚ) (r1 : Option ℚ)
        (rest : List (ℚ × Option ℚ)),
        (mainModel cfg t0 tl0 true ((t1, r1) :: rest)).cmds.head? =
          some (torqueToPDCall cfg false 0 (t1 - t0)).2) ∧
    (∀ (cfg : TorqueToPDConfig) (t0 tl0 t1 : ℚ) (r1 : Option ℚ)
        (rest : List (ℚ × Option ℚ)),
        cfg.t_begin ≤ 0 → 0 < cfg.pd_begin → t0 ≤ t1 →
        (mainModel cfg t0 tl0 true ((t1, r1) :: rest)).cmds.head? =
          some (feedforwardCommand cfg)) := by
  have hfirst : ∀ (cfg : TorqueToPDConfig) (t0 tl0 t1 : ℚ) (r1 : Option ℚ)
      (rest : List (ℚ × Option ℚ)),
      (mainModel cfg t0 tl0 true ((t1, r1) :: rest)).cmds.head? =
        some (torqueToPDCall cfg false 0 (t1 - t0)).2 := by
    intro cfg t0 tl0 t1 r1 rest
    cases r1 with
    | none => simp [mainModel, runLoop]
    | some p =>
      by_cases h : t1 - t0 > cfg.termination_time
      · simp [mainModel, runLoop, h]
      · simp [mainModel, runLoop, h]
  refine ⟨hfirst, ?_⟩
  intro cfg t0 tl0 t1 r1 rest hb hp ht
  rw [hfirst]
  have hcall : (torqueToPDCall cfg false 0 (t1 - t0)).2 = feedforwardCommand cfg := by
    have h1 : ¬ (t1 - t0) < cfg.t_begin := not_lt.mpr (le_trans hb (by linarith))
    simp [torqueToPDCall, feedforwardCommand, h1, hp]
  rw [hcall]

/-- C9 witness: a configuration with `t_begin = 0` and `pd_begin = 2`,
first iteration at elapsed time `1/10` with the actuator actually at
position `3` (above `pd_begin`): the first command is still the
feedforward push. -/
theorem first_call_initial_position_witness :
    (mainModel ⟨0, 4/5, 2, 5/2, 3/2, 1, 1, 3/2, 6/5, 1/5⟩ 0 0 true
        [((1 : ℚ)/10, some 3)]).cmds.head? =
      some (feedforwardCommand ⟨0, 4/5, 2, 5/2, 3/2, 1, 1, 3/2, 6/5, 1/5⟩) :=
  first_call_initial_position.2 ⟨0, 4/5, 2, 5/2, 3/2, 1, 1, 3/2, 6/5, 1/5⟩ 0 0
    ((1 : ℚ)/10) (some 3) [] le_rfl (by norm_num) (by norm_num)

/-- C3 counterexample: the configuration `t_begin = 1, t_reset = 0,
maximum_torque = 0` violates both `t_begin ≤ t_reset` and
`maximum_torque > 0`, yet the constructor accepts it unchanged and the
control loop runs with it to a normal exit, flushing one sample: the
violation is never rejected, at run start or anywhere else. -/
theorem init_no_validation_counterexample :
    (torqueToPDInit 1 0 2 (5/2) (3/2) 1 1 0 (6/5) (1/5)).1.t_reset <
      (torqueToPDInit 1 0 2 (5/2) (3/2) 1 1 0 (6/5) (1/5)).1.t_begin ∧
    ¬ 0 < (torqueToPDInit 1 0 2 (5/2) (3/2) 1 1 0 (6/5) (1/5)).1.maximum_torque ∧
    (mainModel (torqueToPDInit 1 0 2 (5/2) (3/2) 1 1 0 (6/5) (1/5)).1 0 0 true
        [(2, some 0)]).outcome = LoopOutcome.normal ∧
    (mainModel (torqueToPDInit 1 0 2 (5/2) (3/2) 1 1 0 (6/5) (1/5)).1 0 0 true
        [(2, some 0)]).flushed.length = 1 := by
  refine ⟨by norm_num [torqueToPDInit], by norm_num [torqueToPDInit], ?_, ?_⟩
  · norm_num [mainModel, runLoop, torqueToPDInit]
  · norm_num [mainModel, runLoop, torqueToPDInit]

/-- C3 amended: no configuration validation is performed anywhere: the
constructor accepts arbitrary parameter values — including ones that
violate `0 ≤ t_begin ≤ t_reset ≤ termination_time` or
`maximum_torque > 0` — storing them unchanged with the latch false;
invariant violations are never rejected, at run start or mid-loop. -/
theorem init_no_validation (tb tr pb pt tq kp kd mt tt rt : ℚ)
    (_hviol : tr < tb ∨ tt < tr ∨ tb < 0 ∨ mt ≤ 0) :
    torqueToPDInit tb tr pb pt tq kp kd mt tt rt =
      (⟨tb, tr, pb, pt, tq, kp, kd, mt, tt, rt⟩, false) := rfl

/-- C3 amended witness: the invariant-violating configuration
`t_begin = 1 > t_reset = 0` is accepted unchanged. -/
theorem init_no_validation_witness :
    torqueToPDInit 1 0 2 (5/2) (3/2) 1 1 0 (6/5) (1/5) =
      (⟨1, 0, 2, 5/2, 3/2, 1, 1, 0, 6/5, 1/5⟩, false) :=
  init_no_validation 1 0 2 (5/2) (3/2) 1 1 0 (6/5) (1/5) (Or.inl (by norm_num))
